import Mathlib

/-!
Verification development for the packing-line assistant (auto_mach).

The Python sources are shallowly embedded below:
* `priority_engine.py` → `calcPriorityScore` and the rule presets;
* `excel_loader.py`    → `ExcelState` and its query/mutation operations;
* `models.py`          → `ScanResult`, `ScanEvent`;
* `order_processor.py` → `processScan`;
* `pdf_printer.py`     → tracking-index construction and the label
  page-range logic of `extract_page_to_temp`.

Modelling conventions:
* pandas DataFrames become `List Row` (the positional index of a row in
  the list plays the role of the original DataFrame index);
* Python `datetime` values become `Option Int` POSIX timestamps
  (seconds); `datetime(2020, 1, 1).timestamp()` is the constant
  `BASE_TIMESTAMP_2020`;
* `time.time()` values are modelled in integer milliseconds, so the
  0.5-second debounce window of `order_processor.py` becomes 500;
* the `re` module is not re-implemented: every place the source runs
  `re.findall`/`re.search` on page text, the embedding takes the match
  list (resp. the optional captured name) as part of the page datum,
  while plain substring tests (`kw in text`) and `len(text.strip())`
  are computed on the actual string;
* Qt signals, sounds, sleeps, keystroke emulation and the OS print
  pipeline are side effects outside the store and are dropped; the
  `ScanOutcome` structure records instead whether a scan was suppressed
  by the debounce and whether candidate resolution was reached.

All definitions are executable and kernel-computable so that concrete
witnesses evaluate by `decide`.
-/

/-! ## Generic string / association-list helpers

Python string primitives (`str.strip`, `str.isdigit`, lexicographic
`<` on `str`, substring containment) are re-implemented over the
character list of a `String`, because the corresponding Lean library
functions are not kernel-reducible. -/

/-- Lexicographic order on character lists (Python `str` comparison). -/

def lexLe : List Char → List Char → Bool
  | [], _ => true
  | _ :: _, [] => false
  | a :: as, b :: bs => if a == b then lexLe as bs else decide (a < b)

/-- Lexicographic `<=` on strings, as Python compares `str` values. -/

def strLeB (a b : String) : Bool := lexLe a.data b.data

/-- `str.strip()`: drop leading and trailing whitespace. -/

def trimCL (l : List Char) : List Char :=
  ((l.dropWhile Char.isWhitespace).reverse.dropWhile Char.isWhitespace).reverse

/-- `str.strip()` on a `String`. -/

def strTrim (s : String) : String := String.mk (trimCL s.data)

/-- `str.isdigit()`: nonempty and every character a digit. -/

def isDigitStr (s : String) : Bool := !s.data.isEmpty && s.data.all Char.isDigit

/-- `len` of a Python string (number of characters). -/

def strLen (s : String) : Nat := s.data.length

/-- Does `pat` occur as a prefix of `l`? -/

def hasPrefixCL : List Char → List Char → Bool
  | _, [] => true
  | [], _ :: _ => false
  | a :: as, b :: bs => a == b && hasPrefixCL as bs

/-- Does `pat` occur as a contiguous substring of `l`? -/

def hasInfixCL : List Char → List Char → Bool
  | [], pat => pat.isEmpty
  | a :: as, pat => hasPrefixCL (a :: as) pat || hasInfixCL as pat

/-- Python `pat in hay` on strings. -/

def containsSub (hay pat : String) : Bool := hasInfixCL hay.data pat.data

/-- First-match lookup in an association list (a Python dict read). -/

def lookupKey {β : Type} : List (String × β) → String → Option β
  | [], _ => none
  | (k, v) :: rest, key => if k == key then some v else lookupKey rest key

/-- Python dict assignment `d[k] = v`: replace the binding if present,
append it otherwise. -/

def setAssoc {β : Type} : List (String × β) → String → β → List (String × β)
  | [], key, v => [(key, v)]
  | (k, w) :: rest, key, v =>
    if k == key then (k, v) :: rest else (k, w) :: setAssoc rest key v

/-- `d.get(k, false)` on a Bool-valued dict. -/

def lookupBool (l : List (String × Bool)) (key : String) : Bool :=
  (lookupKey l key).getD false

/-- `Series.nunique()`: number of distinct values, via first-occurrence
accumulation. -/

def distinctCount (l : List String) : Nat :=
  (l.foldl (fun acc x => if acc.contains x then acc else acc ++ [x]) []).length

/-- Insertion step of the comparison-based sort used to model
`DataFrame.sort_values`. -/

def insertLe {α : Type} (le : α → α → Bool) (a : α) : List α → List α
  | [] => [a]
  | b :: l => if le a b then a :: b :: l else b :: insertLe le a l

/-- Comparison-based sort modelling `DataFrame.sort_values` (the exact
order among rows equal under every sort key is not specified by
pandas; any sort agreeing with the keys is a faithful model). -/

def sortByB {α : Type} (le : α → α → Bool) : List α → List α
  | [] => []
  | a :: l => insertLe le a (sortByB le l)

/-! ## `priority_engine.py` -/

/-- `PRIORITY_FIXED_SCORE`: fixed bonus for manually pinned shipments. -/

def PRIORITY_FIXED_SCORE : Int := 1000000

/-- `SINGLE_COMBO_BONUS`: bonus for the single/combo rules. -/

def SINGLE_COMBO_BONUS : Int := 10000

/-- `datetime(2020, 1, 1).timestamp()` (seconds). -/

def BASE_TIMESTAMP_2020 : Int := 1577836800

/-- The rule dictionary of `priority_engine.py` (`rules.get(key, False)`
reads totalize to the Bool fields). -/

structure PriorityRules where
  single_first : Bool
  combo_first : Bool
  small_qty_first : Bool
  large_qty_first : Bool
  old_order_first : Bool
  new_order_first : Bool
  manual_priority : Bool
deriving DecidableEq, Repr

/-- The shipment-metadata dictionary consumed by `calc_priority_score`
(`order_meta.get(key, default)` reads totalize to the fields; the
defaults of the empty dict are `emptyMeta` below). -/

structure OrderMeta where
  tracking_no : String
  order_datetime : Option Int
  item_count : Int
  sku_count : Nat
  is_single : Bool
  is_priority : Bool
deriving DecidableEq, Repr

/-- The `{}` metadata returned for an unknown shipment, with the `.get`
defaults used by `calc_priority_score`. -/

def emptyMeta : OrderMeta :=
  { tracking_no := "", order_datetime := none, item_count := 0,
    sku_count := 0, is_single := false, is_priority := false }

/-- `calc_priority_score(order_meta, rules)` from `priority_engine.py`. -/

def calcPriorityScore (m : OrderMeta) (r : PriorityRules) : Int :=
  let score : Int := 0
  let score := if r.manual_priority && m.is_priority then score + PRIORITY_FIXED_SCORE else score
  let score :=
    if r.single_first && m.is_single then score + SINGLE_COMBO_BONUS
    else if r.combo_first && !m.is_single then score + SINGLE_COMBO_BONUS
    else score
  let score :=
    if r.small_qty_first then score + max 0 (1000 - m.item_count)
    else if r.large_qty_first then score + m.item_count
    else score
  let score :=
    match m.order_datetime with
    | some ts =>
      if r.old_order_first then score + max 0 (BASE_TIMESTAMP_2020 - ts)
      else if r.new_order_first then score + max 0 (ts - BASE_TIMESTAMP_2020)
      else score
    | none => score
  score

/-- `get_default_rules()` from `priority_engine.py`. -/

def getDefaultRules : PriorityRules :=
  { single_first := true, combo_first := false, small_qty_first := false,
    large_qty_first := false, old_order_first := false,
    new_order_first := false, manual_priority := true }

/-- The all-toggles-off rule set. -/

def allOffRules : PriorityRules :=
  { single_first := false, combo_first := false, small_qty_first := false,
    large_qty_first := false, old_order_first := false,
    new_order_first := false, manual_priority := false }

/-- Rule set for the C1 counterexample: `manual_priority` and
`old_order_first` enabled. -/

def c1Rules : PriorityRules :=
  { single_first := false, combo_first := false, small_qty_first := false,
    large_qty_first := false, old_order_first := true,
    new_order_first := false, manual_priority := true }

/-- Manually pinned shipment, no order timestamp. -/

def c1MetaFlagged : OrderMeta :=
  { tracking_no := "S1", order_datetime := none, item_count := 1,
    sku_count := 1, is_single := true, is_priority := true }

/-- Unpinned shipment whose order predates the 2020 epoch by
2,000,000 seconds (about 23 days). -/

def c1MetaOld : OrderMeta :=
  { tracking_no := "S2", order_datetime := some (BASE_TIMESTAMP_2020 - 2000000),
    item_count := 1, sku_count := 1, is_single := true, is_priority := false }

/-! ## `excel_loader.py` -/

/-- One row of the loaded order DataFrame after the type coercions of
`load_excel` (`tracking_no`/`barcode` as strings, quantities as ints,
`order_datetime` as an optional timestamp). -/

structure Row where
  tracking_no : String
  barcode : String
  product_name : String
  option_name : String
  qty : Int
  scanned_qty : Int
  used : Int
  order_datetime : Option Int
deriving DecidableEq, Repr

/-- The mutable state of an `ExcelLoader`: the optional DataFrame, the
loader-level priority rules and the `_priority_tracking` dict.  The
`_metadata_cache` is not part of the state: every mutator invalidates
it, so observationally the metadata is recomputed on each read, which
is how `getOrderMetadata` is defined below. -/

structure ExcelState where
  df : Option (List Row)
  priority_rules : Option PriorityRules
  priorityTracking : List (String × Bool)
deriving DecidableEq, Repr

/-- `find_by_barcode`: rows whose stripped barcode equals the stripped
query and whose `used` is 0, keeping the original DataFrame index. -/

def findByBarcode (st : ExcelState) (barcode : String) : List (Nat × Row) :=
  match st.df with
  | none => []
  | some rows =>
    (rows.enum).filter fun p =>
      strTrim p.2.barcode == strTrim barcode && p.2.used == 0

/-- `get_order_metadata` / `_build_metadata_cache`: the metadata of
`tracking_no` among the pending (`used == 0`) rows; `{}` (that is,
`emptyMeta`) when the shipment has no pending row or no DataFrame is
loaded. -/

def getOrderMetadata (st : ExcelState) (tn : String) : OrderMeta :=
  match st.df with
  | none => emptyMeta
  | some rows =>
    let pending := rows.filter fun r => r.used == 0
    let group := pending.filter fun r => r.tracking_no == tn
    match group with
    | [] => emptyMeta
    | g0 :: _ =>
      let skuCount := distinctCount (group.map (·.barcode))
      { tracking_no := tn,
        order_datetime := g0.order_datetime,
        item_count := (group.map (·.qty)).sum,
        sku_count := skuCount,
        is_single := skuCount == 1,
        is_priority := lookupBool st.priorityTracking tn }

/-- The sort key of `find_candidates`: priority score descending, then
`tracking_no` ascending (the two columns passed to `sort_values`). -/

def candLE (st : ExcelState) (rules : PriorityRules) (a b : Nat × Row) : Bool :=
  let sa := calcPriorityScore (getOrderMetadata st a.2.tracking_no) rules
  let sb := calcPriorityScore (getOrderMetadata st b.2.tracking_no) rules
  decide (sb < sa) || (sa == sb && strLeB a.2.tracking_no b.2.tracking_no)

/-- Ascending-`tracking_no` order on candidate rows. -/

def tnLE (a b : Nat × Row) : Bool := strLeB a.2.tracking_no b.2.tracking_no

/-- `find_candidates(barcode, priority_rules)`: barcode candidates
sorted by priority score descending with `tracking_no`-ascending
tie-break; an explicit `priority_rules` argument wins over the loader
rules, which default to `get_default_rules()`. -/

def findCandidates (st : ExcelState) (barcode : String)
    (priorityRules : Option PriorityRules) : List (Nat × Row) :=
  let candidates := findByBarcode st barcode
  if candidates.isEmpty then candidates
  else
    let rules :=
      match priorityRules with
      | none =>
        match st.priority_rules with
        | none => getDefaultRules
        | some r => r
      | some r => r
    sortByB (candLE st rules) candidates

/-- `get_tracking_group`: the rows of one shipment, with their original
DataFrame indices. -/

def getTrackingGroup (st : ExcelState) (tn : String) : List (Nat × Row) :=
  match st.df with
  | none => []
  | some rows => (rows.enum).filter fun p => p.2.tracking_no == tn

/-- `get_group_remaining`: sum of `max(0, qty - scanned_qty)` over the
rows of the shipment (`clip(lower=0)` then `sum`). -/

def getGroupRemaining (st : ExcelState) (tn : String) : Int :=
  let group := getTrackingGroup st tn
  if group.isEmpty then 0
  else (group.map fun p => max 0 (p.2.qty - p.2.scanned_qty)).sum

/-- `is_tracking_used`: the any-then-compare-to-1 test, i.e. some row of the
shipment has a nonzero `used`. -/

def isTrackingUsed (st : ExcelState) (tn : String) : Bool :=
  let group := getTrackingGroup st tn
  if group.isEmpty then false
  else group.any fun p => p.2.used != 0

/-- `increment_scanned(original_index)`: bump `scanned_qty` when below
`qty`; report failure (and leave the state unchanged) at the cap, when
no DataFrame is loaded, or when the index is invalid (the `KeyError`
branch of the source). -/

def incrementScanned (st : ExcelState) (idx : Nat) : Bool × ExcelState :=
  match st.df with
  | none => (false, st)
  | some rows =>
    match rows[idx]? with
    | none => (false, st)
    | some r =>
      if r.scanned_qty < r.qty then
        (true, { st with df := some (rows.set idx { r with scanned_qty := r.scanned_qty + 1 }) })
      else (false, st)

/-- `get_tracking_priority`: read the pin flag, defaulting to false. -/

def getTrackingPriority (st : ExcelState) (tn : String) : Bool :=
  lookupBool st.priorityTracking tn

/-- `set_tracking_priority`: dict assignment of the pin flag. -/

def setTrackingPriority (st : ExcelState) (tn : String) (b : Bool) : ExcelState :=
  { st with priorityTracking := setAssoc st.priorityTracking tn b }

/-- `_clear_priority_if_completed`: drop the pin flag of a completed
shipment when it is set. -/

def clearPriorityIfCompleted (st : ExcelState) (tn : String) : ExcelState :=
  if getTrackingPriority st tn then setTrackingPriority st tn false else st

/-- `mark_used`: set `used = 1` on every row of the shipment, then clear
its pin flag; fails only when no DataFrame is loaded. -/

def markUsed (st : ExcelState) (tn : String) : Bool × ExcelState :=
  match st.df with
  | none => (false, st)
  | some rows =>
    let rows2 := rows.map fun r => if r.tracking_no == tn then { r with used := 1 } else r
    let st2 := { st with df := some rows2 }
    (true, clearPriorityIfCompleted st2 tn)

/-- The per-line invariant `scannedQty <= requiredQty` over a loaded
DataFrame. -/

def scanInv (st : ExcelState) : Prop :=
  ∀ rows, st.df = some rows → ∀ r ∈ rows, r.scanned_qty ≤ r.qty

/-- Folding any sequence of `increment_scanned` calls over the state. -/

def applyIncrements (st : ExcelState) : List Nat → ExcelState
  | [] => st
  | i :: is => applyIncrements (incrementScanned st i).2 is

/-! ## `models.py` -/

/-- `ScanResult` from `models.py`.  This enum is exhaustive: the source
defines no other scan-result value (in particular no dedicated
shipment-mismatch value). -/

inductive ScanResult where
  | SUCCESS
  | ALREADY_USED
  | NOT_FOUND
  | ERROR
deriving DecidableEq, Repr

/-- `ScanEvent` from `models.py`.  In the formatted messages below the
single-quote characters that the source puts around interpolated
values are omitted (the quote character cannot appear in this file);
everything else is kept verbatim. -/

structure ScanEvent where
  timestamp : String
  barcode : String
  tracking_no : Option String
  result : ScanResult
  message : String
deriving DecidableEq, Repr

/-! ## `order_processor.py` -/

/-- The state of an `OrderProcessor`: the excel loader it owns, the
active shipment, the debounce bookkeeping and the processor-level
priority rules.  `_last_scan_time` (a float of seconds from
`time.time()`) is modelled in integer milliseconds. -/

structure ProcState where
  excel : ExcelState
  current_tracking_no : Option String
  last_barcode : String
  last_scan_time : Int
  priority_rules : Option PriorityRules
deriving DecidableEq, Repr

/-- The observable outcome of one `process_scan` call: the returned
event (`none` models the `return None` of the debounce branch), the
post state, whether the debounce suppressed the scan, and whether the
scan reached candidate resolution (the store lookup). -/

structure ScanOutcome where
  event : Option ScanEvent
  state : ProcState
  suppressed : Bool
  resolved : Bool
deriving DecidableEq, Repr

/-- `sanitize_barcode` from `utils.py`: strip, then remove every CR and
LF character. -/

def sanitizeBarcode (s : String) : String :=
  String.mk ((trimCL s.data).filter fun c => !(c == '\r' || c == '\n'))

/-- The double-scan guard of `process_scan`: same barcode as the last
scan and less than 0.5 s (500 ms) elapsed. -/

def debounced (st : ProcState) (barcode : String) (now : Int) : Bool :=
  barcode == st.last_barcode && decide (now - st.last_scan_time < 500)

/-- Steps 2-9 of `process_scan` once a candidate list has been fixed:
select the first candidate, reject used shipments, increment the
selected line, update the active shipment and run the completion
sequence when the group remainder reaches zero. -/

def processSelected (st : ProcState) (barcode ts : String)
    (candidates : List (Nat × Row)) : ScanOutcome :=
  match candidates with
  | [] =>
    { event := some { timestamp := ts, barcode := barcode, tracking_no := none,
                      result := ScanResult.NOT_FOUND,
                      message := "⚠️ 바코드 " ++ barcode ++ "를 찾을 수 없습니다" },
      state := st, suppressed := false, resolved := true }
  | sel :: _ =>
    let tn := sel.2.tracking_no
    if isTrackingUsed st.excel tn then
      { event := some { timestamp := ts, barcode := barcode, tracking_no := some tn,
                        result := ScanResult.ALREADY_USED,
                        message := "이미 처리된 송장입니다: " ++ tn },
        state := st, suppressed := false, resolved := true }
    else
      let inc := incrementScanned st.excel sel.1
      if !inc.1 then
        { event := some { timestamp := ts, barcode := barcode, tracking_no := some tn,
                          result := ScanResult.ERROR,
                          message := "스캔 수량 업데이트 실패" },
          state := st, suppressed := false, resolved := true }
      else
        let st2 := { st with excel := inc.2 }
        let st3 := if st2.current_tracking_no != some tn
                   then { st2 with current_tracking_no := some tn } else st2
        let remaining := getGroupRemaining st3.excel tn
        if remaining == 0 then
          let mu := markUsed st3.excel tn
          { event := some { timestamp := ts, barcode := barcode, tracking_no := some tn,
                            result := ScanResult.SUCCESS,
                            message := "송장 " ++ tn ++ " 구성 완료!" },
            state := { st3 with excel := mu.2, current_tracking_no := none },
            suppressed := false, resolved := true }
        else
          { event := some { timestamp := ts, barcode := barcode, tracking_no := some tn,
                            result := ScanResult.SUCCESS,
                            message := "스캔 성공 (남은 수량: " ++ toString remaining ++ ")" },
            state := st3, suppressed := false, resolved := true }

/-- Step 1 of `process_scan`: with an active shipment, restrict the
search to the lines of that shipment with a stripped-barcode match and
`scanned_qty < qty`; with no active shipment, run `find_candidates`. -/

def processScanMatch (st : ProcState) (barcode ts : String) : ScanOutcome :=
  match st.current_tracking_no with
  | some cur =>
    let currentMatch := (getTrackingGroup st.excel cur).filter fun p =>
      strTrim p.2.barcode == barcode && decide (p.2.scanned_qty < p.2.qty)
    if currentMatch.isEmpty then
      { event := some { timestamp := ts, barcode := barcode, tracking_no := some cur,
                        result := ScanResult.NOT_FOUND,
                        message := "⚠️ 현재 송장(" ++ cur ++ ")에 " ++ barcode ++ " 없음!" },
        state := st, suppressed := false, resolved := true }
    else processSelected st barcode ts currentMatch
  | none =>
    processSelected st barcode ts (findCandidates st.excel barcode st.priority_rules)

/-- `process_scan` after the debounce check and the
`_last_barcode`/`_last_scan_time` bookkeeping: the tracking-number
format guard (12/13-digit all-numeric scans not among the pending
tracking numbers are ignored), then candidate matching. -/

def processScanBody (st : ProcState) (barcode ts : String) : ScanOutcome :=
  if isDigitStr barcode && (barcode.data.length == 13 || barcode.data.length == 12) then
    match st.excel.df with
    | some rows =>
      if !((rows.filter fun r => r.used == 0).any fun r => r.tracking_no == barcode) then
        { event := some { timestamp := ts, barcode := barcode, tracking_no := none,
                          result := ScanResult.NOT_FOUND,
                          message := "송장번호 스캔 무시: " ++ barcode },
          state := st, suppressed := false, resolved := false }
      else processScanMatch st barcode ts
    | none =>
      { event := some { timestamp := ts, barcode := barcode, tracking_no := none,
                        result := ScanResult.NOT_FOUND,
                        message := "송장번호 스캔 무시: " ++ barcode },
        state := st, suppressed := false, resolved := false }
  else processScanMatch st barcode ts

/-- `process_scan(barcode)` from `order_processor.py`; `ts` is the
formatted wall-clock timestamp `get_timestamp()` and `now` the
monotonically supplied `time.time()` value in milliseconds. -/

def processScan (st : ProcState) (rawBarcode ts : String) (now : Int) : ScanOutcome :=
  let barcode := sanitizeBarcode rawBarcode
  if debounced st barcode now then
    { event := none, state := st, suppressed := true, resolved := false }
  else
    processScanBody { st with last_barcode := barcode, last_scan_time := now } barcode ts

/-- Shared order line for the C3 scenario: shipment S2 requires one
unit of barcode X. -/

def c3Row : Row :=
  { tracking_no := "S2", barcode := "X", product_name := "p", option_name := "o",
    qty := 1, scanned_qty := 0, used := 0, order_datetime := none }

/-- State with shipment S2 active. -/

def c3StActive : ProcState :=
  { excel := { df := some [c3Row], priority_rules := none, priorityTracking := [] },
    current_tracking_no := some ("S2"), last_barcode := "", last_scan_time := 0,
    priority_rules := none }

/-- Same store, no active shipment. -/

def c3StIdle : ProcState :=
  { excel := { df := some [c3Row], priority_rules := none, priorityTracking := [] },
    current_tracking_no := none, last_barcode := "", last_scan_time := 0,
    priority_rules := none }

/-! ## `pdf_printer.py`

The indexer is embedded over an abstract document: a page is `none`
when every extraction strategy of the cascade fails on it (the
fully-image case), and `some ms` when some strategy yields text on
which the identifier pattern set produces the surface-match list `ms`
(in pattern order).  The regex engine itself is not re-implemented;
the key normalization, validation and first-wins insertion are taken
from the source verbatim. -/

/-- `re.sub` of the hyphen-like/whitespace class: strip every ASCII
hyphen, en dash, em dash and whitespace character. -/

def normKey (s : String) : String :=
  String.mk (s.data.filter fun c => !(c == '-' || c == '–' || c == '—' || c.isWhitespace))

/-- `clean_match.isdigit() and len(clean_match) >= 10`. -/

def validKey (s : String) : Bool := isDigitStr s && decide (s.data.length ≥ 10)

/-- The tracking index `{key: page}` (the document handle is constant
in single-file mode and omitted). -/

abbrev TrackingIndex : Type := List (String × Nat)

/-- One surface match processed by `build_tracking_index`: normalize,
validate, skip matches already seen on this page, then store the clean
key and the original surface form, each only when not already
indexed.  The accumulator carries the index, the running
`total_pages` counter and the per-page `found_matches` set. -/

def insertMatch (pageNum : Nat) (acc : TrackingIndex × Nat × List String)
    (m : String) : TrackingIndex × Nat × List String :=
  let clean := normKey m
  if validKey clean then
    if acc.2.2.contains clean then acc
    else
      let found2 := clean :: acc.2.2
      let idxTotal :=
        if (lookupKey acc.1 clean).isNone then (acc.1 ++ [(clean, pageNum)], acc.2.1 + 1)
        else (acc.1, acc.2.1)
      let idx2 :=
        if m != clean && (lookupKey idxTotal.1 m).isNone then idxTotal.1 ++ [(m, pageNum)]
        else idxTotal.1
      (idx2, idxTotal.2, found2)
  else acc

/-- Process one page: a page with no extractable text contributes
nothing; otherwise fold its surface matches with a fresh
`found_matches` set. -/

def processPage (st : TrackingIndex × Nat) (pageNum : Nat)
    (page : Option (List String)) : TrackingIndex × Nat :=
  match page with
  | none => st
  | some ms =>
    let r := ms.foldl (insertMatch pageNum) (st.1, st.2, [])
    (r.1, r.2.1)

/-- Page-by-page loop of `build_tracking_index`. -/

def buildIndexFrom (st : TrackingIndex × Nat) (pageNum : Nat) :
    List (Option (List String)) → TrackingIndex × Nat
  | [] => st
  | p :: rest => buildIndexFrom (processPage st pageNum p) (pageNum + 1) rest

/-- `build_tracking_index(excel_tracking_numbers)`: builds the index
from the pages alone.  As in the source, the supplied
`excel_tracking_numbers` list is accepted but never read — despite the
docstring of the source promising a positional mapping for image-only
PDFs, no code path consumes it. -/

def buildTrackingIndex (pages : List (Option (List String)))
    (excelTrackingNumbers : Option (List String)) : TrackingIndex × Nat :=
  buildIndexFrom ([], 0) 0 pages

/-- One surface match processed by `_build_tracking_index_2`: the
`found_matches` set is document-global there and the surface-form
insertion is nested inside the clean-key insertion. -/

def insertMatch2 (pageNum : Nat) (acc : TrackingIndex × List String)
    (m : String) : TrackingIndex × List String :=
  let clean := normKey m
  if validKey clean then
    if acc.2.contains clean then acc
    else
      let found2 := clean :: acc.2
      if (lookupKey acc.1 clean).isNone then
        let idx1 := acc.1 ++ [(clean, pageNum)]
        let idx2 :=
          if m != clean && (lookupKey idx1 m).isNone then idx1 ++ [(m, pageNum)]
          else idx1
        (idx2, found2)
      else (acc.1, found2)
  else acc

/-- Page-by-page loop of `_build_tracking_index_2` (every page yields
its `get_text()` matches; a page with no text yields `[]`). -/

def buildIndex2From (acc : TrackingIndex × List String) (pageNum : Nat) :
    List (List String) → TrackingIndex × List String
  | [] => acc
  | ms :: rest => buildIndex2From (ms.foldl (insertMatch2 pageNum) acc) (pageNum + 1) rest

/-- `_build_tracking_index_2`: the second-PDF index. -/

def buildTrackingIndex2 (pages : List (List String)) : TrackingIndex :=
  (buildIndex2From ([], []) 0 pages).1

/-! ### C5: the page-range logic of `extract_page_to_temp`

A page is abstracted as its raw text plus the two regex outputs the
source computes on it: the surface matches of the tracking-number
pattern set (`re.findall`), and the optional recipient name captured
by the name patterns (`re.search`). -/

/-- One page of the label document as seen by `extract_page_to_temp`. -/

structure PageInfo where
  text : String
  trackingMatches : List String
  recipName : Option String
deriving DecidableEq, Repr

/-- The customer/product keyword set checked on the next page. -/

def nextPageKeywords : List String :=
  ["수령자", "받는분", "수신인", "고객", "주문자", "상품명", "제품명", "품목", "수량", "개"]

/-- Python truthiness of the optional recipient name. -/

def recipTruthy : Option String → Bool
  | some s => !s.data.isEmpty
  | none => false

/-- The page range computed by `extract_page_to_temp(tracking_no)`:
look the shipment up in the index, validate the page number, then
decide whether to include page `start+1`: stop if it carries a
different valid identifier; include it if it contains a
customer/product keyword, or if a recipient name was found on the
start page and its stripped text is longer than 20 characters;
otherwise keep the single page.  Returns the inclusive page range
(the actual source then renders those pages to a temp PDF). -/

def extractPageRange (doc : List PageInfo) (index : TrackingIndex) (tn : String) :
    Option (Nat × Nat) :=
  match lookupKey index tn with
  | none => none
  | some pageNum =>
    match doc[pageNum]? with
    | none => none
    | some cur =>
      let cleanTn := normKey tn
      match doc[pageNum + 1]? with
      | none => some (pageNum, pageNum)
      | some next =>
        let nextHasTracking := next.trackingMatches.any fun m =>
          validKey (normKey m) && normKey m != cleanTn
        if nextHasTracking then some (pageNum, pageNum)
        else
          let hasCustomerInfo := nextPageKeywords.any fun kw => containsSub next.text kw
          if hasCustomerInfo ||
              (recipTruthy cur.recipName && decide ((strTrim next.text).data.length > 20)) then
            some (pageNum, pageNum + 1)
          else some (pageNum, pageNum)

/-- Document for the C5 counterexample: page 0 carries the identifier;
page 1 has 26 characters of plain text, no keyword of
`nextPageKeywords`, no identifier match and no recipient name was
found on page 0. -/

def c5DocPlain : List PageInfo :=
  [{ text := "12345-6789-0123", trackingMatches := ["12345-6789-0123"], recipName := none },
   { text := "abcdefghijklmnopqrstuvwxyz", trackingMatches := [], recipName := none }]

/-- Index for the C5 scenario, as `build_tracking_index` would produce
it from page 0. -/

def c5Index : TrackingIndex := [("1234567890123", 0), ("12345-6789-0123", 0)]

/-- Document for the C5 witness: page 1 carries the identifier, page 2
contains only a recipient-name keyword and no identifier (scenario D
of the specification). -/

def c5DocKeyword : List PageInfo :=
  [{ text := "12345-6789-0123", trackingMatches := ["12345-6789-0123"], recipName := none },
   { text := "수령자", trackingMatches := [], recipName := none }]

/-! ### C1 -/

/-- C1 counterexample: with `manual_priority` enabled, a flagged shipment
does NOT always outscore an unflagged one — enabling `old_order_first`
gives an unflagged shipment ordered 2,000,000 s before the 2020 epoch a
time bonus of 2,000,000, exceeding the fixed bonus 1,000,000. -/

theorem c1_manual_priority_counterexample :
    c1Rules.manual_priority = true ∧
    c1MetaFlagged.is_priority = true ∧
    c1MetaOld.is_priority = false ∧
    ¬(calcPriorityScore c1MetaFlagged c1Rules > calcPriorityScore c1MetaOld c1Rules) := by
  refine ⟨rfl, rfl, rfl, ?_⟩
  decide

/-- C1 (amended): with the `manual_priority` toggle enabled, a shipment
with `manualPriorityFlag=true` outscores any shipment without it,
regardless of the single/combo and quantity toggles, provided the
order-timestamp rules (`old_order_first`, `new_order_first`) are
disabled, both item counts are nonnegative, and the unflagged
item count of the unflagged shipment is below 990,000. -/

theorem c1_manual_priority_dominates_amended
    (m1 m2 : OrderMeta) (r : PriorityRules)
    (hmp : r.manual_priority = true)
    (hold : r.old_order_first = false)
    (hnew : r.new_order_first = false)
    (h1 : m1.is_priority = true)
    (h2 : m2.is_priority = false)
    (hic1 : 0 ≤ m1.item_count)
    (hic2 : 0 ≤ m2.item_count)
    (hic2b : m2.item_count < 990000) :
    calcPriorityScore m1 r > calcPriorityScore m2 r := by
  unfold calcPriorityScore PRIORITY_FIXED_SCORE SINGLE_COMBO_BONUS
  rw [hmp, hold, hnew, h1, h2]
  cases m1.order_datetime <;> cases m2.order_datetime <;>
    simp only [Bool.and_true, Bool.and_false, Bool.false_and, if_true, if_false,
      Bool.false_eq_true, ite_false, max_def] <;>
    split_ifs <;> omega

/-- Witness for the amended C1 theorem at a concrete input. -/

theorem c1_manual_priority_dominates_amended_witness :
    calcPriorityScore c1MetaFlagged getDefaultRules >
      calcPriorityScore c1MetaOld getDefaultRules :=
  c1_manual_priority_dominates_amended c1MetaFlagged c1MetaOld getDefaultRules
    rfl rfl rfl rfl rfl (by decide) (by decide) (by decide)

/-! ### C4 -/

/-- `increment_scanned` preserves `scannedQty <= requiredQty`. -/

theorem incrementScanned_preserves_inv (st : ExcelState) (idx : Nat)
    (h : scanInv st) : scanInv (incrementScanned st idx).2 := by
  unfold incrementScanned
  cases hdf : st.df with
  | none => simpa [hdf] using h
  | some rows =>
    cases hget : rows[idx]? with
    | none => simpa [hdf, hget] using h
    | some r =>
      by_cases hlt : r.scanned_qty < r.qty
      · simp only [hdf, hget, hlt, if_pos]
        intro rows2 hrows2 x hx
        simp only [Option.some.injEq] at hrows2
        subst hrows2
        rcases List.mem_or_eq_of_mem_set hx with hx2 | hx2
        · exact h rows hdf x hx2
        · subst hx2; simpa using hlt
      · simp only [hdf, hget, hlt, if_neg, if_false]
        simpa using h

/-- C4: `scanned_qty <= qty` is an invariant.  An `increment_scanned`
on a line already at the cap (`scanned_qty = qty`) returns failure and
leaves the state unchanged, and no sequence of `increment_scanned`
calls starting from a state satisfying the invariant can ever produce
`scanned_qty > qty`. -/

theorem c4_increment_scanned_cap_invariant (st : ExcelState)
    (hinv : scanInv st) :
    (∀ rows idx r, st.df = some rows → rows[idx]? = some r →
        r.scanned_qty = r.qty → incrementScanned st idx = (false, st)) ∧
    (∀ ops rows, (applyIncrements st ops).df = some rows →
        ∀ r ∈ rows, r.scanned_qty ≤ r.qty) := by
  constructor
  · intro rows idx r hdf hget hcap
    unfold incrementScanned
    simp [hdf, hget, hcap]
  · intro ops
    induction ops generalizing st with
    | nil => exact hinv
    | cons i is ih =>
      intro rows h
      exact ih (incrementScanned st i).2 (incrementScanned_preserves_inv st i hinv) rows h

/-- Witness for C4 at a concrete state: a single line at its cap. -/

theorem c4_increment_scanned_cap_invariant_witness :
    let r : Row := { tracking_no := "S1", barcode := "X", product_name := "p",
                     option_name := "o", qty := 2, scanned_qty := 2, used := 0,
                     order_datetime := none }
    let st : ExcelState := { df := some [r], priority_rules := none, priorityTracking := [] }
    incrementScanned st 0 = (false, st) ∧
    (∀ rows, (applyIncrements st [0, 0, 0]).df = some rows →
        ∀ x ∈ rows, x.scanned_qty ≤ x.qty) := by
  intro r st
  have hinv : scanInv st := by
    intro rows h x hx
    simp only [st, Option.some.injEq] at h
    subst h
    simp only [List.mem_singleton] at hx
    subst hx
    decide
  refine ⟨?_, fun rows h => (c4_increment_scanned_cap_invariant st hinv).2 [0, 0, 0] rows h⟩
  exact (c4_increment_scanned_cap_invariant st hinv).1 [r] 0 r rfl rfl rfl

/-! ### C8 -/

/-- Looking up the key just assigned returns the assigned value. -/

theorem lookupKey_setAssoc {β : Type} (l : List (String × β)) (k : String) (v : β) :
    lookupKey (setAssoc l k v) k = some v := by
  induction l with
  | nil => simp [setAssoc, lookupKey]
  | cons p rest ih =>
    by_cases h : p.1 == k
    · simp [setAssoc, lookupKey, h]
    · simp [setAssoc, lookupKey, h, ih]

/-- C8: completing a shipment via `mark_used` forces the manual
priority flag off — right after `mark_used`, `get_tracking_priority`
returns false for that shipment. -/

theorem c8_mark_used_clears_priority (st : ExcelState) (tn : String) (rows : List Row)
    (hdf : st.df = some rows)
    (hprio : getTrackingPriority st tn = true) :
    getTrackingPriority (markUsed st tn).2 tn = false := by
  unfold markUsed
  rw [hdf]
  simp only
  unfold clearPriorityIfCompleted
  have h2 : getTrackingPriority
      { st with df := some (rows.map fun r =>
          if r.tracking_no == tn then { r with used := 1 } else r) } tn = true := by
    simpa [getTrackingPriority, lookupBool] using hprio
  rw [h2]
  simp only [if_true]
  unfold getTrackingPriority setTrackingPriority lookupBool
  simp [lookupKey_setAssoc]

/-- Witness for C8 at a concrete state with the pin flag set. -/

theorem c8_mark_used_clears_priority_witness :
    let r : Row := { tracking_no := "S1", barcode := "X", product_name := "p",
                     option_name := "o", qty := 1, scanned_qty := 1, used := 0,
                     order_datetime := none }
    let st : ExcelState := { df := some [r], priority_rules := none,
                             priorityTracking := [("S1", true)] }
    getTrackingPriority (markUsed st ("S1")).2 ("S1") = false := by
  intro r st
  exact c8_mark_used_clears_priority st ("S1") [r] rfl (by decide)

/-- The selection stage never suppresses and never touches the debounce
bookkeeping fields. -/

theorem processSelected_bookkeeping (st : ProcState) (b ts : String)
    (cands : List (Nat × Row)) :
    (processSelected st b ts cands).suppressed = false ∧
    (processSelected st b ts cands).state.last_barcode = st.last_barcode ∧
    (processSelected st b ts cands).state.last_scan_time = st.last_scan_time := by
  cases cands with
  | nil => simp [processSelected]
  | cons sel rest =>
    simp only [processSelected]
    split_ifs <;> simp

/-- The matching stage never suppresses and never touches the debounce
bookkeeping fields. -/

theorem processScanMatch_bookkeeping (st : ProcState) (b ts : String) :
    (processScanMatch st b ts).suppressed = false ∧
    (processScanMatch st b ts).state.last_barcode = st.last_barcode ∧
    (processScanMatch st b ts).state.last_scan_time = st.last_scan_time := by
  unfold processScanMatch
  cases hc : st.current_tracking_no with
  | none => exact processSelected_bookkeeping st b ts _
  | some cur =>
    by_cases h : ((getTrackingGroup st.excel cur).filter fun p =>
        strTrim p.2.barcode == b && decide (p.2.scanned_qty < p.2.qty)).isEmpty
    · simp [h]
    · simp only [h, if_false, Bool.false_eq_true]
      exact processSelected_bookkeeping st b ts _

/-- The whole post-debounce body never suppresses and never touches the
debounce bookkeeping fields. -/

theorem processScanBody_bookkeeping (st : ProcState) (b ts : String) :
    (processScanBody st b ts).suppressed = false ∧
    (processScanBody st b ts).state.last_barcode = st.last_barcode ∧
    (processScanBody st b ts).state.last_scan_time = st.last_scan_time := by
  unfold processScanBody
  rcases Bool.eq_false_or_eq_true
      (isDigitStr b && (b.data.length == 13 || b.data.length == 12)) with h1 | h1
  · rw [if_pos h1]
    cases hdf : st.excel.df with
    | none => simp [hdf]
    | some rows =>
      rcases Bool.eq_false_or_eq_true
          (!((rows.filter fun r => r.used == 0).any fun r => r.tracking_no == b)) with h2 | h2
      · simp only [hdf]
        rw [if_pos h2]
        simp
      · simp only [hdf]
        rw [if_neg (by rw [h2]; exact Bool.false_ne_true)]
        exact processScanMatch_bookkeeping st b ts
  · rw [if_neg (by rw [h1]; exact Bool.false_ne_true)]
    exact processScanMatch_bookkeeping st b ts

/-- An unsuppressed `process_scan` records the sanitized barcode and the
scan time for the debounce of the next scan. -/

theorem processScan_records_last (st : ProcState) (raw ts : String) (now : Int)
    (h : (processScan st raw ts now).suppressed = false) :
    (processScan st raw ts now).state.last_barcode = sanitizeBarcode raw ∧
    (processScan st raw ts now).state.last_scan_time = now := by
  unfold processScan at h ⊢
  by_cases hd : debounced st (sanitizeBarcode raw) now
  · simp [hd] at h
  · simp only [hd, if_false, Bool.false_eq_true]
    have hb := processScanBody_bookkeeping
      { st with last_barcode := sanitizeBarcode raw, last_scan_time := now }
      (sanitizeBarcode raw) ts
    exact ⟨hb.2.1, hb.2.2⟩

/-! ### C9 -/

/-- C9: after an unsuppressed scan of a barcode at time `t1`, a second
scan of the same barcode less than 500 ms later is suppressed before
any candidate resolution — `process_scan` returns no event, performs no
resolution and leaves the whole state (in particular every
`scanned_qty`) unchanged; a scan of a different barcode, or of the same
barcode 500 ms or more later, is not suppressed. -/

theorem c9_debounce_window (st : ProcState) (b b2 ts1 ts2 : String) (t1 t2 : Int)
    (hfirst : (processScan st b ts1 t1).suppressed = false) :
    (t2 - t1 < 500 →
      processScan (processScan st b ts1 t1).state b ts2 t2 =
        { event := none, state := (processScan st b ts1 t1).state,
          suppressed := true, resolved := false }) ∧
    (sanitizeBarcode b2 ≠ sanitizeBarcode b ∨ 500 ≤ t2 - t1 →
      (processScan (processScan st b ts1 t1).state b2 ts2 t2).suppressed = false) := by
  obtain ⟨hb, htime⟩ := processScan_records_last st b ts1 t1 hfirst
  generalize hst1 : (processScan st b ts1 t1).state = st1 at hb htime ⊢
  constructor
  · intro hlt
    have hdeb : debounced st1 (sanitizeBarcode b) t2 = true := by
      unfold debounced
      rw [hb, htime]
      simp [hlt]
    simp only [processScan]
    rw [if_pos hdeb]
  · intro hcase
    have hdeb : debounced st1 (sanitizeBarcode b2) t2 = false := by
      unfold debounced
      rw [hb, htime]
      rcases hcase with hne | hge
      · simp [hne]
      · simp [not_lt.mpr hge]
    simp only [processScan]
    rw [if_neg (by rw [hdeb]; exact Bool.false_ne_true)]
    exact (processScanBody_bookkeeping _ _ _).1

/-- Witness for C9: scans of barcode X at 1000 ms and 1100 ms (100 ms
apart), and a scan of barcode Y at 1100 ms. -/

theorem c9_debounce_window_witness :
    let st : ProcState :=
      { excel := { df := some [], priority_rules := none, priorityTracking := [] },
        current_tracking_no := none, last_barcode := "", last_scan_time := 0,
        priority_rules := none }
    (processScan (processScan st ("X") "t1" 1000).state ("X") "t2" 1100 =
      { event := none, state := (processScan st ("X") "t1" 1000).state,
        suppressed := true, resolved := false }) ∧
    (processScan (processScan st ("X") "t1" 1000).state ("Y") "t2" 1100).suppressed = false := by
  intro st
  have h := c9_debounce_window st ("X") "Y" "t1" "t2" 1000 1100 (by decide)
  exact ⟨h.1 (by decide), h.2 (Or.inl (by decide))⟩

/-! ### C10 -/

/-- C10: an unsuppressed scan of an all-digit string of length 12 or 13
that is not among the pending (`used = 0`) tracking numbers is treated
as an accidental tracking-number scan: `process_scan` returns a
NOT_FOUND event carrying the tracking-number-scan-ignored message,
reaches no candidate resolution, and mutates nothing but the debounce
bookkeeping — even when the barcode of some order line equals the scanned
string. -/

theorem c10_tracking_number_scan_ignored (st : ProcState) (raw ts : String) (now : Int)
    (rows : List Row)
    (hnd : debounced st (sanitizeBarcode raw) now = false)
    (hdig : isDigitStr (sanitizeBarcode raw) = true)
    (hlen : (sanitizeBarcode raw).data.length = 13 ∨ (sanitizeBarcode raw).data.length = 12)
    (hdf : st.excel.df = some rows)
    (hnotin : ∀ r ∈ rows, r.used = 0 → r.tracking_no ≠ sanitizeBarcode raw) :
    processScan st raw ts now =
      { event := some { timestamp := ts, barcode := sanitizeBarcode raw, tracking_no := none,
                        result := ScanResult.NOT_FOUND,
                        message := "송장번호 스캔 무시: " ++ sanitizeBarcode raw },
        state := { st with last_barcode := sanitizeBarcode raw, last_scan_time := now },
        suppressed := false, resolved := false } := by
  simp only [processScan]
  rw [if_neg (by rw [hnd]; exact Bool.false_ne_true)]
  unfold processScanBody
  have hcond : (isDigitStr (sanitizeBarcode raw) &&
      ((sanitizeBarcode raw).data.length == 13 ||
        (sanitizeBarcode raw).data.length == 12)) = true := by
    rcases hlen with h | h <;> simp [hdig, h]
  rw [if_pos hcond]
  dsimp only
  rw [hdf]
  have hany : ((rows.filter fun r => r.used == 0).any
      fun r => r.tracking_no == sanitizeBarcode raw) = false := by
    rw [Bool.eq_false_iff]
    intro hc
    rcases List.any_eq_true.mp hc with ⟨r, hr, hrb⟩
    rcases List.mem_filter.mp hr with ⟨hrm, hru⟩
    exact hnotin r hrm (by simpa using hru) (by simpa using hrb)
  simp only [hany, Bool.not_false, if_true]

/-- Witness for C10: the scanned string 123456789012 is a 12-digit
number absent from the pending tracking numbers, while an order line
with exactly that barcode exists. -/

theorem c10_tracking_number_scan_ignored_witness :
    let r : Row := { tracking_no := "S1", barcode := "123456789012", product_name := "p",
                     option_name := "o", qty := 1, scanned_qty := 0, used := 0,
                     order_datetime := none }
    let st : ProcState :=
      { excel := { df := some [r], priority_rules := none, priorityTracking := [] },
        current_tracking_no := none, last_barcode := "", last_scan_time := 0,
        priority_rules := none }
    processScan st ("123456789012") "t" 1000 =
      { event := some { timestamp := "t", barcode := sanitizeBarcode ("123456789012"),
                        tracking_no := none, result := ScanResult.NOT_FOUND,
                        message := "송장번호 스캔 무시: " ++ sanitizeBarcode ("123456789012") },
        state := { st with last_barcode := sanitizeBarcode ("123456789012"),
                           last_scan_time := 1000 },
        suppressed := false, resolved := false } := by
  intro r st
  exact c10_tracking_number_scan_ignored st ("123456789012") "t" 1000 [r]
    (by decide) (by decide) (Or.inr (by decide)) rfl (by decide)

/-! ### C3 -/

/-- C3 counterexample: no `SHIPMENT_MISMATCH` result exists.  Scanning
"Z" while S2 is active yields the generic `NOT_FOUND` result — the very
same result value returned for an unknown barcode with no active
shipment — and `ScanResult` exhaustively contains only `SUCCESS`,
`ALREADY_USED`, `NOT_FOUND` and `ERROR`.  (The mismatch does leave the
active shipment and the store untouched, as the claim says.) -/

theorem c3_shipment_mismatch_counterexample :
    (processScan c3StActive ("Z") "t" 1000).event.map ScanEvent.result =
      some ScanResult.NOT_FOUND ∧
    (processScan c3StActive ("Z") "t" 1000).state.current_tracking_no = some ("S2") ∧
    (processScan c3StActive ("Z") "t" 1000).state.excel = c3StActive.excel ∧
    (processScan c3StIdle ("Z") "t" 1000).event.map ScanEvent.result =
      some ScanResult.NOT_FOUND ∧
    (∀ r : ScanResult, r = ScanResult.SUCCESS ∨ r = ScanResult.ALREADY_USED ∨
      r = ScanResult.NOT_FOUND ∨ r = ScanResult.ERROR) := by
  refine ⟨by decide, by decide, by decide, by decide, fun r => by cases r <;> simp⟩

/-- C3 (amended): while a shipment is active, an unsuppressed scan of a
barcode (not of tracking-number format) with no matching
`scanned_qty < qty` line in the active shipment returns a `NOT_FOUND`
event referencing the active shipment (the source has no distinct
SHIPMENT_MISMATCH result value), the same shipment remains active, and
the store — in particular every `scanned_qty` — is unchanged. -/

theorem c3_active_mismatch_amended (st : ProcState) (raw ts : String) (now : Int)
    (cur : String)
    (hnd : debounced st (sanitizeBarcode raw) now = false)
    (hguard : (isDigitStr (sanitizeBarcode raw) &&
      ((sanitizeBarcode raw).data.length == 13 ||
        (sanitizeBarcode raw).data.length == 12)) = false)
    (hcur : st.current_tracking_no = some cur)
    (hmatch : (getTrackingGroup st.excel cur).filter (fun p =>
        strTrim p.2.barcode == sanitizeBarcode raw &&
          decide (p.2.scanned_qty < p.2.qty)) = []) :
    processScan st raw ts now =
      { event := some { timestamp := ts, barcode := sanitizeBarcode raw,
                        tracking_no := some cur, result := ScanResult.NOT_FOUND,
                        message := "⚠️ 현재 송장(" ++ cur ++ ")에 " ++
                          sanitizeBarcode raw ++ " 없음!" },
        state := { st with last_barcode := sanitizeBarcode raw, last_scan_time := now },
        suppressed := false, resolved := true } := by
  simp only [processScan]
  rw [if_neg (by rw [hnd]; exact Bool.false_ne_true)]
  unfold processScanBody
  rw [if_neg (by rw [hguard]; exact Bool.false_ne_true)]
  unfold processScanMatch
  dsimp only
  rw [hcur]
  dsimp only
  rw [hmatch]
  rfl

/-- Witness for the amended C3 theorem: scanning barcode Z while S2
(which only contains barcode X) is active. -/

theorem c3_active_mismatch_amended_witness :
    processScan c3StActive ("Z") "t" 1000 =
      { event := some { timestamp := "t", barcode := sanitizeBarcode ("Z"),
                        tracking_no := some ("S2"), result := ScanResult.NOT_FOUND,
                        message := "⚠️ 현재 송장(" ++ "S2" ++ ")에 " ++
                          sanitizeBarcode ("Z") ++ " 없음!" },
        state := { c3StActive with last_barcode := sanitizeBarcode ("Z"),
                                   last_scan_time := 1000 },
        suppressed := false, resolved := true } :=
  c3_active_mismatch_amended c3StActive ("Z") "t" 1000 ("S2")
    (by decide) (by decide) rfl (by decide)

/-! ### C7 -/

/-- With every toggle off, `calc_priority_score` is identically 0. -/

theorem calc_allOffRules_eq_zero (m : OrderMeta) : calcPriorityScore m allOffRules = 0 := by
  unfold calcPriorityScore allOffRules
  cases m.order_datetime <;> simp

/-- `lexLe` is total. -/

theorem lexLe_total (a b : List Char) : lexLe a b = true ∨ lexLe b a = true := by
  induction a generalizing b with
  | nil => left; rfl
  | cons x xs ih =>
    cases b with
    | nil => right; rfl
    | cons y ys =>
      by_cases hxy : x = y
      · subst hxy
        rcases ih ys with h | h
        · left; simp [lexLe, h]
        · right; simp [lexLe, h]
      · have hb1 : (x == y) = false := beq_eq_false_iff_ne.mpr hxy
        have hb2 : (y == x) = false := beq_eq_false_iff_ne.mpr (Ne.symm hxy)
        rcases lt_or_gt_of_ne hxy with hlt | hgt
        · left; simp [lexLe, hb1, hlt]
        · right; simp [lexLe, hb2, hgt]

/-- `lexLe` is transitive. -/

theorem lexLe_trans (a b c : List Char) (hab : lexLe a b = true)
    (hbc : lexLe b c = true) : lexLe a c = true := by
  induction a generalizing b c with
  | nil => rfl
  | cons x xs ih =>
    cases b with
    | nil => simp [lexLe] at hab
    | cons y ys =>
      cases c with
      | nil => simp [lexLe] at hbc
      | cons z zs =>
        simp only [lexLe] at hab hbc ⊢
        by_cases hxy : x = y
        · subst hxy
          simp only [beq_self_eq_true, if_true] at hab
          by_cases hxz : x = z
          · subst hxz
            simp only [beq_self_eq_true, if_true] at hbc ⊢
            exact ih ys zs hab hbc
          · have hne : (x == z) = false := beq_eq_false_iff_ne.mpr hxz
            simp only [hne, Bool.false_eq_true, if_false] at hbc ⊢
            exact hbc
        · have hne : (x == y) = false := beq_eq_false_iff_ne.mpr hxy
          simp only [hne, Bool.false_eq_true, if_false, decide_eq_true_eq] at hab
          by_cases hyz : y = z
          · subst hyz
            simp only [hne, Bool.false_eq_true, if_false, decide_eq_true_eq]
            exact hab
          · have hney : (y == z) = false := beq_eq_false_iff_ne.mpr hyz
            simp only [hney, Bool.false_eq_true, if_false, decide_eq_true_eq] at hbc
            have hxz : x < z := lt_trans hab hbc
            have hnexz : (x == z) = false := beq_eq_false_iff_ne.mpr (ne_of_lt hxz)
            simp only [hnexz, Bool.false_eq_true, if_false, decide_eq_true_eq]
            exact hxz

/-- Membership in `insertLe`. -/

theorem mem_insertLe {α : Type} (le : α → α → Bool) (a x : α) (l : List α) :
    x ∈ insertLe le a l ↔ x = a ∨ x ∈ l := by
  induction l with
  | nil => simp [insertLe]
  | cons b bs ih =>
    simp only [insertLe]
    by_cases h : le a b
    · rw [if_pos h]
      simp only [List.mem_cons]
      try tauto
    · rw [if_neg h]
      simp only [List.mem_cons, ih]
      try tauto

/-- `insertLe` preserves pairwise sortedness for a total transitive
comparison. -/

theorem pairwise_insertLe {α : Type} (le : α → α → Bool)
    (htot : ∀ a b, le a b = true ∨ le b a = true)
    (htrans : ∀ a b c, le a b = true → le b c = true → le a c = true)
    (a : α) (l : List α)
    (hl : List.Pairwise (fun x y => le x y = true) l) :
    List.Pairwise (fun x y => le x y = true) (insertLe le a l) := by
  induction l with
  | nil => simp [insertLe]
  | cons b bs ih =>
    rcases List.pairwise_cons.mp hl with ⟨hb, hbs⟩
    simp only [insertLe]
    by_cases h : le a b
    · rw [if_pos h]
      refine List.pairwise_cons.mpr ⟨?_, hl⟩
      intro y hy
      rcases List.mem_cons.mp hy with hy | hy
      · subst hy; exact h
      · exact htrans a b y h (hb y hy)
    · rw [if_neg h]
      refine List.pairwise_cons.mpr ⟨?_, ih hbs⟩
      intro y hy
      rcases (mem_insertLe le a y bs).mp hy with hy | hy
      · rcases htot a b with hab | hba
        · exact absurd hab h
        · rw [hy]; exact hba
      · exact hb y hy

/-- `sortByB` sorts with respect to a total transitive comparison. -/

theorem pairwise_sortByB {α : Type} (le : α → α → Bool)
    (htot : ∀ a b, le a b = true ∨ le b a = true)
    (htrans : ∀ a b c, le a b = true → le b c = true → le a c = true)
    (l : List α) :
    List.Pairwise (fun x y => le x y = true) (sortByB le l) := by
  induction l with
  | nil => simp [sortByB]
  | cons a as ih => exact pairwise_insertLe le htot htrans a (sortByB le as) ih

/-- With all rules off the candidate comparison degenerates to the
ascending-`tracking_no` comparison. -/

theorem candLE_allOffRules (st : ExcelState) : candLE st allOffRules = tnLE := by
  funext a b
  simp [candLE, tnLE, calc_allOffRules_eq_zero]

/-- C7: with every rule toggle off, every shipment metadata scores 0,
`find_candidates` returns exactly the barcode matches sorted by
ascending `tracking_no`, and the returned list is pairwise ordered by
ascending `tracking_no`. -/

theorem c7_all_toggles_off_ascending_tracking_no :
    (∀ m : OrderMeta, calcPriorityScore m allOffRules = 0) ∧
    (∀ st barcode, findCandidates st barcode (some allOffRules) =
        sortByB tnLE (findByBarcode st barcode)) ∧
    (∀ st barcode, List.Pairwise (fun a b => tnLE a b = true)
        (findCandidates st barcode (some allOffRules))) := by
  have htot : ∀ a b : Nat × Row, tnLE a b = true ∨ tnLE b a = true := by
    intro a b
    exact lexLe_total a.2.tracking_no.data b.2.tracking_no.data
  have htrans : ∀ a b c : Nat × Row,
      tnLE a b = true → tnLE b c = true → tnLE a c = true := by
    intro a b c hab hbc
    exact lexLe_trans a.2.tracking_no.data b.2.tracking_no.data c.2.tracking_no.data hab hbc
  have heq : ∀ st barcode, findCandidates st barcode (some allOffRules) =
      sortByB tnLE (findByBarcode st barcode) := by
    intro st barcode
    simp only [findCandidates]
    rw [candLE_allOffRules]
    by_cases h : (findByBarcode st barcode).isEmpty
    · rw [if_pos h]
      rw [List.isEmpty_iff] at h
      rw [h]
      rfl
    · rw [if_neg h]
  refine ⟨calc_allOffRules_eq_zero, heq, ?_⟩
  intro st barcode
  rw [heq st barcode]
  exact pairwise_sortByB tnLE htot htrans (findByBarcode st barcode)

/-! ### C2 -/

/-- C2: on a fully image-based document — where the extraction
cascade fails on every page — `build_tracking_index` does NOT fall back to a
positional mapping of the supplied ordered identifiers: whatever list
is supplied, the index comes out empty with a zero match count (the
parameter is never read), and no heuristic/low-confidence flag exists
in the return value.  This contradicts the docstring of the source itself
("map the excel tracking numbers in page order for image PDFs") and
the dead comment announcing an excel-based fallback, so it is recorded
as a code bug against the claim. -/

theorem c2_no_positional_fallback (ids : List String) :
    buildTrackingIndex [none, none, none] (some ids) = ([], 0) := rfl

/-! ### C6 -/

/-- `lookupKey` is stable under appending entries on the right. -/

theorem lookupKey_append_of_some {β : Type} (idx l : List (String × β)) (k : String)
    (v : β) (h : lookupKey idx k = some v) : lookupKey (idx ++ l) k = some v := by
  induction idx with
  | nil => simp [lookupKey] at h
  | cons p rest ih =>
    simp only [lookupKey, List.cons_append] at h ⊢
    by_cases hk : p.1 == k
    · rcases p with ⟨k1, v1⟩
      simp only [hk, if_pos] at h ⊢
      exact h
    · rcases p with ⟨k1, v1⟩
      simp only [hk, Bool.false_eq_true, if_false] at h ⊢
      exact ih h

/-- `insertMatch` only appends to the index. -/

theorem insertMatch_append (p : Nat) (acc : TrackingIndex × Nat × List String)
    (m : String) : ∃ l, (insertMatch p acc m).1 = acc.1 ++ l := by
  simp only [insertMatch]
  split_ifs
  · exact ⟨[], by simp⟩
  · exact ⟨[(normKey m, p), (m, p)], by simp⟩
  · exact ⟨[(normKey m, p)], by simp⟩
  · exact ⟨[(m, p)], by simp⟩
  · exact ⟨[], by simp⟩
  · exact ⟨[], by simp⟩

/-- Folding `insertMatch` over a match list only appends to the index. -/

theorem foldl_insertMatch_append (p : Nat) (ms : List String) :
    ∀ acc : TrackingIndex × Nat × List String,
      ∃ l, (ms.foldl (insertMatch p) acc).1 = acc.1 ++ l := by
  induction ms with
  | nil => intro acc; exact ⟨[], by simp⟩
  | cons m rest ih =>
    intro acc
    rcases insertMatch_append p acc m with ⟨l1, h1⟩
    rcases ih (insertMatch p acc m) with ⟨l2, h2⟩
    exact ⟨l1 ++ l2, by simp only [List.foldl_cons, h2, h1, List.append_assoc]⟩

/-- `processPage` only appends to the index. -/

theorem processPage_append (st : TrackingIndex × Nat) (p : Nat)
    (page : Option (List String)) : ∃ l, (processPage st p page).1 = st.1 ++ l := by
  cases page with
  | none => exact ⟨[], by simp [processPage]⟩
  | some ms =>
    rcases foldl_insertMatch_append p ms (st.1, st.2, []) with ⟨l, h⟩
    exact ⟨l, by simpa [processPage] using h⟩

/-- `buildIndexFrom` only appends to the index. -/

theorem buildIndexFrom_append (pages : List (Option (List String))) :
    ∀ (st : TrackingIndex × Nat) (p : Nat),
      ∃ l, (buildIndexFrom st p pages).1 = st.1 ++ l := by
  induction pages with
  | nil => intro st p; exact ⟨[], by simp [buildIndexFrom]⟩
  | cons pg rest ih =>
    intro st p
    rcases processPage_append st p pg with ⟨l1, h1⟩
    rcases ih (processPage st p pg) (p + 1) with ⟨l2, h2⟩
    exact ⟨l1 ++ l2, by simp only [buildIndexFrom, h2, h1, List.append_assoc]⟩

/-- `buildIndexFrom` splits over an append of page lists. -/

theorem buildIndexFrom_append_pages (pages1 pages2 : List (Option (List String))) :
    ∀ (st : TrackingIndex × Nat) (p : Nat),
      buildIndexFrom st p (pages1 ++ pages2) =
        buildIndexFrom (buildIndexFrom st p pages1) (p + pages1.length) pages2 := by
  induction pages1 with
  | nil => intro st p; simp [buildIndexFrom]
  | cons pg rest ih =>
    intro st p
    simp only [List.cons_append, buildIndexFrom, List.length_cons, List.append_eq]
    rw [ih]
    congr 1
    omega

/-- Filtering twice with the same predicate filters once. -/

theorem filter_idem {α : Type} (p : α → Bool) (l : List α) :
    (l.filter p).filter p = l.filter p := by
  induction l with
  | nil => rfl
  | cons c cs ih =>
    by_cases h : p c
    · simp [List.filter_cons, h, ih]
    · simp [List.filter_cons, h, ih]

/-- Key normalization is idempotent. -/

theorem normKey_idem (s : String) : normKey (normKey s) = normKey s :=
  congrArg String.mk (filter_idem _ s.data)

/-- Every entry added by `insertMatch` is the valid clean key of a
match or the surface form of a match with a valid clean key. -/

theorem insertMatch_mem (p : Nat) (acc : TrackingIndex × Nat × List String)
    (m : String) (kv : String × Nat) (h : kv ∈ (insertMatch p acc m).1) :
    kv ∈ acc.1 ∨ (validKey (normKey m) = true ∧ (kv = (normKey m, p) ∨ kv = (m, p))) := by
  simp only [insertMatch] at h
  split_ifs at h with h1 h2 h3 h4 h5
  · exact Or.inl h
  · rcases List.mem_append.mp h with h | h
    · rcases List.mem_append.mp h with h | h
      · exact Or.inl h
      · simp only [List.mem_singleton] at h
        exact Or.inr ⟨h1, Or.inl h⟩
    · simp only [List.mem_singleton] at h
      exact Or.inr ⟨h1, Or.inr h⟩
  · rcases List.mem_append.mp h with h | h
    · exact Or.inl h
    · simp only [List.mem_singleton] at h
      exact Or.inr ⟨h1, Or.inl h⟩
  · rcases List.mem_append.mp h with h | h
    · exact Or.inl h
    · simp only [List.mem_singleton] at h
      exact Or.inr ⟨h1, Or.inr h⟩
  · exact Or.inl h
  · exact Or.inl h

/-- Entry validity is preserved by folding `insertMatch`. -/

theorem foldl_insertMatch_valid (p : Nat) (ms : List String) :
    ∀ acc : TrackingIndex × Nat × List String,
      (∀ kv ∈ acc.1, validKey (normKey kv.1) = true) →
      ∀ kv ∈ (ms.foldl (insertMatch p) acc).1, validKey (normKey kv.1) = true := by
  induction ms with
  | nil => intro acc h; exact h
  | cons m rest ih =>
    intro acc h
    refine ih (insertMatch p acc m) ?_
    intro kv hkv
    rcases insertMatch_mem p acc m kv hkv with hkv | ⟨hm, hkv | hkv⟩
    · exact h kv hkv
    · subst hkv; simpa [normKey_idem] using hm
    · subst hkv; exact hm

/-- Entry validity is preserved by the page loop. -/

theorem buildIndexFrom_valid (pages : List (Option (List String))) :
    ∀ (st : TrackingIndex × Nat) (p : Nat),
      (∀ kv ∈ st.1, validKey (normKey kv.1) = true) →
      ∀ kv ∈ (buildIndexFrom st p pages).1, validKey (normKey kv.1) = true := by
  induction pages with
  | nil => intro st p h; exact h
  | cons pg rest ih =>
    intro st p h
    refine ih (processPage st p pg) (p + 1) ?_
    cases pg with
    | none => exact h
    | some ms => exact foldl_insertMatch_valid p ms (st.1, st.2, []) h

/-- Every entry added by `insertMatch2` is the valid clean key of a
match or the surface form of a match with a valid clean key. -/

theorem insertMatch2_mem (p : Nat) (acc : TrackingIndex × List String)
    (m : String) (kv : String × Nat) (h : kv ∈ (insertMatch2 p acc m).1) :
    kv ∈ acc.1 ∨ (validKey (normKey m) = true ∧ (kv = (normKey m, p) ∨ kv = (m, p))) := by
  simp only [insertMatch2] at h
  split_ifs at h with h1 h2 h3 h4
  · exact Or.inl h
  · rcases List.mem_append.mp h with h | h
    · rcases List.mem_append.mp h with h | h
      · exact Or.inl h
      · simp only [List.mem_singleton] at h
        exact Or.inr ⟨h1, Or.inl h⟩
    · simp only [List.mem_singleton] at h
      exact Or.inr ⟨h1, Or.inr h⟩
  · rcases List.mem_append.mp h with h | h
    · exact Or.inl h
    · simp only [List.mem_singleton] at h
      exact Or.inr ⟨h1, Or.inl h⟩
  · exact Or.inl h
  · exact Or.inl h

/-- `insertMatch2` only appends to the index. -/

theorem insertMatch2_append (p : Nat) (acc : TrackingIndex × List String)
    (m : String) : ∃ l, (insertMatch2 p acc m).1 = acc.1 ++ l := by
  simp only [insertMatch2]
  split_ifs
  · exact ⟨[], by simp⟩
  · exact ⟨[(normKey m, p), (m, p)], by simp⟩
  · exact ⟨[(normKey m, p)], by simp⟩
  · exact ⟨[], by simp⟩
  · exact ⟨[], by simp⟩

/-- Folding `insertMatch2` only appends to the index. -/

theorem foldl_insertMatch2_append (p : Nat) (ms : List String) :
    ∀ acc : TrackingIndex × List String,
      ∃ l, (ms.foldl (insertMatch2 p) acc).1 = acc.1 ++ l := by
  induction ms with
  | nil => intro acc; exact ⟨[], by simp⟩
  | cons m rest ih =>
    intro acc
    rcases insertMatch2_append p acc m with ⟨l1, h1⟩
    rcases ih (insertMatch2 p acc m) with ⟨l2, h2⟩
    exact ⟨l1 ++ l2, by simp only [List.foldl_cons, h2, h1, List.append_assoc]⟩

/-- Entry validity is preserved by folding `insertMatch2`. -/

theorem foldl_insertMatch2_valid (p : Nat) (ms : List String) :
    ∀ acc : TrackingIndex × List String,
      (∀ kv ∈ acc.1, validKey (normKey kv.1) = true) →
      ∀ kv ∈ (ms.foldl (insertMatch2 p) acc).1, validKey (normKey kv.1) = true := by
  induction ms with
  | nil => intro acc h; exact h
  | cons m rest ih =>
    intro acc h
    refine ih (insertMatch2 p acc m) ?_
    intro kv hkv
    rcases insertMatch2_mem p acc m kv hkv with hkv | ⟨hm, hkv | hkv⟩
    · exact h kv hkv
    · subst hkv; simpa [normKey_idem] using hm
    · subst hkv; exact hm

/-- Entry validity is preserved by the second-index page loop. -/

theorem buildIndex2From_valid (pages : List (List String)) :
    ∀ (acc : TrackingIndex × List String) (p : Nat),
      (∀ kv ∈ acc.1, validKey (normKey kv.1) = true) →
      ∀ kv ∈ (buildIndex2From acc p pages).1, validKey (normKey kv.1) = true := by
  induction pages with
  | nil => intro acc p h; exact h
  | cons ms rest ih =>
    intro acc p h
    exact ih (ms.foldl (insertMatch2 p) acc) (p + 1) (foldl_insertMatch2_valid p ms acc h)

/-- `buildIndex2From` only appends to the index. -/

theorem buildIndex2From_append (pages : List (List String)) :
    ∀ (acc : TrackingIndex × List String) (p : Nat),
      ∃ l, (buildIndex2From acc p pages).1 = acc.1 ++ l := by
  induction pages with
  | nil => intro acc p; exact ⟨[], by simp [buildIndex2From]⟩
  | cons ms rest ih =>
    intro acc p
    rcases foldl_insertMatch2_append p ms acc with ⟨l1, h1⟩
    rcases ih (ms.foldl (insertMatch2 p) acc) (p + 1) with ⟨l2, h2⟩
    exact ⟨l1 ++ l2, by simp only [buildIndex2From, h2, h1, List.append_assoc]⟩

/-- `buildIndex2From` splits over an append of page lists. -/

theorem buildIndex2From_append_pages (pages1 pages2 : List (List String)) :
    ∀ (acc : TrackingIndex × List String) (p : Nat),
      buildIndex2From acc p (pages1 ++ pages2) =
        buildIndex2From (buildIndex2From acc p pages1) (p + pages1.length) pages2 := by
  induction pages1 with
  | nil => intro acc p; simp [buildIndex2From]
  | cons ms rest ih =>
    intro acc p
    simp only [List.cons_append, buildIndex2From, List.length_cons, List.append_eq]
    rw [ih]
    congr 1
    omega

/-- C6: every key stored by `build_tracking_index` (and by
`_build_tracking_index_2`) normalizes to an all-digit string of length
at least 10 — each key is either such a clean key or an original
surface form of one — and a key present in the index after any page
prefix is never overwritten by a later page: the first occurrence wins
for the whole build. -/

theorem c6_index_keys_valid_first_wins :
    (∀ pages nos kv, kv ∈ (buildTrackingIndex pages nos).1 →
        validKey (normKey kv.1) = true) ∧
    (∀ pages1 pages2 nos k v,
        lookupKey (buildTrackingIndex pages1 nos).1 k = some v →
        lookupKey (buildTrackingIndex (pages1 ++ pages2) nos).1 k = some v) ∧
    (∀ pages kv, kv ∈ buildTrackingIndex2 pages →
        validKey (normKey kv.1) = true) ∧
    (∀ pages1 pages2 k v,
        lookupKey (buildTrackingIndex2 pages1) k = some v →
        lookupKey (buildTrackingIndex2 (pages1 ++ pages2)) k = some v) := by
  refine ⟨?_, ?_, ?_, ?_⟩
  · intro pages nos kv hkv
    exact buildIndexFrom_valid pages ([], 0) 0 (by simp) kv hkv
  · intro pages1 pages2 nos k v h
    unfold buildTrackingIndex at h ⊢
    rw [buildIndexFrom_append_pages]
    rcases buildIndexFrom_append pages2 (buildIndexFrom ([], 0) 0 pages1)
        (0 + pages1.length) with ⟨l, hl⟩
    rw [hl]
    exact lookupKey_append_of_some _ _ _ _ h
  · intro pages kv hkv
    exact buildIndex2From_valid pages ([], []) 0 (by simp) kv hkv
  · intro pages1 pages2 k v h
    unfold buildTrackingIndex2 at h ⊢
    rw [buildIndex2From_append_pages]
    rcases buildIndex2From_append pages2 (buildIndex2From ([], []) 0 pages1)
        (0 + pages1.length) with ⟨l, hl⟩
    rw [hl]
    exact lookupKey_append_of_some _ _ _ _ h

/-- Witness for C6: an index built from a hyphenated identifier keeps
its page-0 binding when a later page repeats the identifier, and the
surface key stored alongside the clean key normalizes to a valid
all-digit key. -/

theorem c6_index_keys_valid_first_wins_witness :
    lookupKey (buildTrackingIndex
        ([some ["12345-6789-0123"]] ++ [some ["1234567890123"]]) none).1
      "1234567890123" = some 0 ∧
    lookupKey (buildTrackingIndex2 ([["12345-6789-0123"]] ++ [["1234567890123"]]))
      "1234567890123" = some 0 ∧
    validKey (normKey ("12345-6789-0123")) = true := by
  refine ⟨?_, ?_, ?_⟩
  · exact c6_index_keys_valid_first_wins.2.1 [some ["12345-6789-0123"]]
      [some ["1234567890123"]] none ("1234567890123") 0 (by decide)
  · exact c6_index_keys_valid_first_wins.2.2.2 [["12345-6789-0123"]]
      [["1234567890123"]] ("1234567890123") 0 (by decide)
  · exact c6_index_keys_valid_first_wins.1 [some ["12345-6789-0123"]] none
      ("12345-6789-0123", 0) (by decide)

/-! ### C5 -/


/-- C5 counterexample: page 1 has non-trivial text length (26 > 20
characters once stripped), contains no identifier and no keyword, yet
the resolver returns the single-page range `[0]`, not `[0, 1]` as the
claim ("or simply has non-trivial text length") predicts — because the
length test in the source additionally requires a recipient name to
have been found on the start page. -/

theorem c5_nontrivial_length_counterexample :
    extractPageRange c5DocPlain c5Index ("1234567890123") = some (0, 0) ∧
    some ((0 : Nat), (0 : Nat)) ≠ some ((0 : Nat), (1 : Nat)) ∧
    (strTrim ("abcdefghijklmnopqrstuvwxyz")).data.length > 20 ∧
    (nextPageKeywords.any fun kw => containsSub ("abcdefghijklmnopqrstuvwxyz") kw) = false := by
  refine ⟨by decide, by decide, by decide, by decide⟩

/-- C5 (amended): when the shipment is found at page `start` and page
`start+1` exists: a different valid identifier on page `start+1` gives
range `[start]`; otherwise a customer/product keyword on page
`start+1` gives `[start, start+1]`; with no keyword, `[start,
start+1]` still results when a recipient name was extracted from page
`start` and page `start+1` has stripped text longer than 20
characters; in every other case the range is `[start]`.  (The bare
non-trivial-length test of the claim only fires together with the
recipient-name condition.) -/

theorem c5_page_range_amended (doc : List PageInfo) (index : TrackingIndex)
    (tn : String) (p : Nat) (cur next : PageInfo)
    (hlook : lookupKey index tn = some p)
    (hcur : doc[p]? = some cur)
    (hnext : doc[p + 1]? = some next) :
    ((next.trackingMatches.any fun m =>
        validKey (normKey m) && normKey m != normKey tn) = true →
      extractPageRange doc index tn = some (p, p)) ∧
    ((next.trackingMatches.any fun m =>
        validKey (normKey m) && normKey m != normKey tn) = false →
      (nextPageKeywords.any fun kw => containsSub next.text kw) = true →
      extractPageRange doc index tn = some (p, p + 1)) ∧
    ((next.trackingMatches.any fun m =>
        validKey (normKey m) && normKey m != normKey tn) = false →
      (nextPageKeywords.any fun kw => containsSub next.text kw) = false →
      recipTruthy cur.recipName = true →
      (strTrim next.text).data.length > 20 →
      extractPageRange doc index tn = some (p, p + 1)) ∧
    ((next.trackingMatches.any fun m =>
        validKey (normKey m) && normKey m != normKey tn) = false →
      (nextPageKeywords.any fun kw => containsSub next.text kw) = false →
      (recipTruthy cur.recipName = false ∨ (strTrim next.text).data.length ≤ 20) →
      extractPageRange doc index tn = some (p, p)) := by
  have hbase : extractPageRange doc index tn =
      (if (next.trackingMatches.any fun m =>
            validKey (normKey m) && normKey m != normKey tn) then some (p, p)
       else if (nextPageKeywords.any fun kw => containsSub next.text kw) ||
            (recipTruthy cur.recipName && decide ((strTrim next.text).data.length > 20)) then
         some (p, p + 1)
       else some (p, p)) := by
    unfold extractPageRange
    simp only [hlook, hcur, hnext]
  refine ⟨?_, ?_, ?_, ?_⟩
  · intro h1
    rw [hbase, if_pos h1]
  · intro h1 h2
    rw [hbase, if_neg (by rw [h1]; exact Bool.false_ne_true),
      if_pos (by rw [h2]; rfl)]
  · intro h1 h2 h3 h4
    rw [hbase, if_neg (by rw [h1]; exact Bool.false_ne_true),
      if_pos (by rw [h2, h3, decide_eq_true h4]; rfl)]
  · intro h1 h2 h3
    have hcond : ((nextPageKeywords.any fun kw => containsSub next.text kw) ||
        (recipTruthy cur.recipName && decide ((strTrim next.text).data.length > 20))) = false := by
      rw [h2, Bool.false_or]
      rcases h3 with h3 | h3
      · rw [h3, Bool.false_and]
      · rw [decide_eq_false (Nat.not_lt.mpr h3), Bool.and_false]
    rw [hbase, if_neg (by rw [h1]; exact Bool.false_ne_true),
      if_neg (by rw [hcond]; exact Bool.false_ne_true)]

/-- Witness for the amended C5 theorem: the keyword branch yields the
two-page range. -/

theorem c5_page_range_amended_witness :
    extractPageRange c5DocKeyword c5Index ("1234567890123") = some (0, 0 + 1) :=
  (c5_page_range_amended c5DocKeyword c5Index ("1234567890123") 0
      (c5DocKeyword.get ⟨0, by decide⟩) (c5DocKeyword.get ⟨1, by decide⟩)
      (by decide) (by decide) (by decide)).2.1 (by decide) (by decide)
